import Mathlib

/-!
Shallow embedding of the request-scoped latency-instrumentation mechanism
(osbenchmark/context.py) and of the Hyperspace protocol client and transport
(osbenchmark/hyperspace_client.py), together with theorems settling the
behavioural claims about them.

Timestamps (Python floats produced by time.perf_counter) are modelled as
integers: every claim only depends on their linear order and on the literal
values 0, 5 and 10.  The contextvars stack of one concurrent unit is modelled
as an explicit list of contexts whose head is the active context; Python
dictionaries are modelled as association lists.
-/

/-- The per-scope request context: the dictionary stored in the
benchmark_request_context context variable.  A missing dictionary key is
modelled as none; request_end_list is modelled directly as a list because
the code never distinguishes a missing key from an empty list (both reads
use get with a default of the empty list). -/
structure RequestContext where
  client_request_start : Option Int := none
  client_request_end : Option Int := none
  request_start : Option Int := none
  request_end_list : List Int := []

/-- The empty context created by RequestContextHolder.init_request_context. -/
def emptyRequestContext : RequestContext := {}

/-- Python max(iterable, default=d): the maximum element of a nonempty list,
the default otherwise. -/
def pymax (l : List Int) (d : Int) : Int :=
  match l with
  | [] => d
  | x :: xs => xs.foldl max x

/-- RequestContextHolder.update_request_start: record the value only when no
request_start exists yet and a client_request_start is already present. -/
def update_request_start (c : RequestContext) (v : Int) : RequestContext :=
  if c.request_start.isNone && c.client_request_start.isSome then
    { c with request_start := some v }
  else c

/-- RequestContextHolder.update_request_end: append the value to
request_end_list (creating the list when absent). -/
def update_request_end (c : RequestContext) (v : Int) : RequestContext :=
  { c with request_end_list := c.request_end_list ++ [v] }

/-- RequestContextHolder.update_client_request_start: first writer wins. -/
def update_client_request_start (c : RequestContext) (v : Int) : RequestContext :=
  if c.client_request_start.isNone then { c with client_request_start := some v } else c

/-- RequestContextHolder.update_client_request_end: last writer wins. -/
def update_client_request_end (c : RequestContext) (v : Int) : RequestContext :=
  { c with client_request_end := some v }

/-- RequestContextManager.request_start: self.ctx.get("request_start", 0). -/
def request_start_of (c : RequestContext) : Int :=
  c.request_start.getD 0

/-- RequestContextManager.client_request_start:
self.ctx.get("client_request_start", 0). -/
def client_request_start_of (c : RequestContext) : Int :=
  c.client_request_start.getD 0

/-- RequestContextManager.client_request_end:
self.ctx.get("client_request_end", time.perf_counter()); the now argument
models the perf_counter reading used when the key is absent. -/
def client_request_end_of (c : RequestContext) (now : Int) : Int :=
  c.client_request_end.getD now

/-- RequestContextManager.request_end: the maximum element of
request_end_list strictly below client_request_end, with default 0. -/
def request_end_of (c : RequestContext) (now : Int) : Int :=
  pymax ((c.request_end_list).filter (fun v => v < client_request_end_of c now)) 0

/-- RequestContextHolder.init_request_context as seen by one concurrent unit:
push a fresh empty context on the stack (head is the active context). -/
def init_request_context (stack : List RequestContext) : List RequestContext :=
  emptyRequestContext :: stack

/-- RequestContextManager.aexit: read the exiting scope's four derived
values, restore the previous context, and when the restored token is not the
missing sentinel (i.e. a parent context exists) merge them into the parent by
the four update calls in source order. -/
def exit_request_context (stack : List RequestContext) (now : Int) : List RequestContext :=
  match stack with
  | [] => []
  | child :: rest =>
    match rest with
    | [] => []
    | parent :: deeper =>
      let p1 := update_request_start parent (request_start_of child)
      let p2 := update_request_end p1 (request_end_of child now)
      let p3 := update_client_request_start p2 (client_request_start_of child)
      let p4 := update_client_request_end p3 (client_request_end_of child now)
      p4 :: deeper

/-- Folding RequestContextHolder.update_request_end over a list of
timestamps, modelling k successive on_request_end calls. -/
def record_request_ends (c : RequestContext) (ts : List Int) : RequestContext :=
  ts.foldl update_request_end c

@[simp] lemma update_request_start_client_request_start (c : RequestContext) (v : Int) :
    (update_request_start c v).client_request_start = c.client_request_start := by
  unfold update_request_start; split <;> rfl

@[simp] lemma update_request_start_client_request_end (c : RequestContext) (v : Int) :
    (update_request_start c v).client_request_end = c.client_request_end := by
  unfold update_request_start; split <;> rfl

@[simp] lemma update_request_start_request_end_list (c : RequestContext) (v : Int) :
    (update_request_start c v).request_end_list = c.request_end_list := by
  unfold update_request_start; split <;> rfl

lemma update_request_start_request_start (c : RequestContext) (v : Int) :
    (update_request_start c v).request_start =
      if c.request_start.isNone && c.client_request_start.isSome then some v
      else c.request_start := by
  unfold update_request_start; split <;> simp_all

@[simp] lemma update_request_end_client_request_start (c : RequestContext) (v : Int) :
    (update_request_end c v).client_request_start = c.client_request_start := rfl

@[simp] lemma update_request_end_client_request_end (c : RequestContext) (v : Int) :
    (update_request_end c v).client_request_end = c.client_request_end := rfl

@[simp] lemma update_request_end_request_start (c : RequestContext) (v : Int) :
    (update_request_end c v).request_start = c.request_start := rfl

@[simp] lemma update_request_end_request_end_list (c : RequestContext) (v : Int) :
    (update_request_end c v).request_end_list = c.request_end_list ++ [v] := rfl

lemma update_client_request_start_client_request_start (c : RequestContext) (v : Int) :
    (update_client_request_start c v).client_request_start =
      if c.client_request_start.isSome then c.client_request_start else some v := by
  unfold update_client_request_start
  cases h : c.client_request_start <;> simp [h]

@[simp] lemma update_client_request_start_client_request_end (c : RequestContext) (v : Int) :
    (update_client_request_start c v).client_request_end = c.client_request_end := by
  unfold update_client_request_start; split <;> rfl

@[simp] lemma update_client_request_start_request_start (c : RequestContext) (v : Int) :
    (update_client_request_start c v).request_start = c.request_start := by
  unfold update_client_request_start; split <;> rfl

@[simp] lemma update_client_request_start_request_end_list (c : RequestContext) (v : Int) :
    (update_client_request_start c v).request_end_list = c.request_end_list := by
  unfold update_client_request_start; split <;> rfl

@[simp] lemma update_client_request_end_client_request_start (c : RequestContext) (v : Int) :
    (update_client_request_end c v).client_request_start = c.client_request_start := rfl

@[simp] lemma update_client_request_end_client_request_end (c : RequestContext) (v : Int) :
    (update_client_request_end c v).client_request_end = some v := rfl

@[simp] lemma update_client_request_end_request_start (c : RequestContext) (v : Int) :
    (update_client_request_end c v).request_start = c.request_start := rfl

@[simp] lemma update_client_request_end_request_end_list (c : RequestContext) (v : Int) :
    (update_client_request_end c v).request_end_list = c.request_end_list := rfl

lemma le_foldl_max (x : Int) (xs : List Int) : x ≤ xs.foldl max x := by
  induction xs generalizing x with
  | nil => simp
  | cons y ys ih => exact le_trans (le_max_left x y) (ih (max x y))

lemma foldl_max_mem (x : Int) (xs : List Int) :
    xs.foldl max x = x ∨ xs.foldl max x ∈ xs := by
  induction xs generalizing x with
  | nil => exact Or.inl rfl
  | cons y ys ih =>
    rcases ih (max x y) with h | h
    · rcases max_choice x y with hm | hm
      · exact Or.inl (by rw [List.foldl_cons, h, hm])
      · exact Or.inr (by rw [List.foldl_cons, h, hm]; exact List.mem_cons_self y ys)
    · exact Or.inr (List.mem_cons_of_mem y h)

lemma mem_le_foldl_max (x : Int) (xs : List Int) :
    ∀ y ∈ xs, y ≤ xs.foldl max x := by
  induction xs generalizing x with
  | nil => intro y hy; cases hy
  | cons z zs ih =>
    intro y hy
    rcases List.mem_cons.mp hy with h | h
    · subst h
      exact le_trans (le_max_right x y) (le_foldl_max (max x y) zs)
    · exact ih (max x z) y h

lemma pymax_mem (l : List Int) (d : Int) (h : l ≠ []) : pymax l d ∈ l := by
  cases l with
  | nil => exact absurd rfl h
  | cons x xs =>
    rcases foldl_max_mem x xs with hm | hm
    · rw [pymax, hm]; exact List.mem_cons_self x xs
    · rw [pymax]; exact List.mem_cons_of_mem x hm

lemma mem_le_pymax (l : List Int) (d : Int) : ∀ x ∈ l, x ≤ pymax l d := by
  cases l with
  | nil => intro x hx; cases hx
  | cons y ys =>
    intro x hx
    rcases List.mem_cons.mp hx with h | h
    · subst h; exact le_foldl_max x ys
    · exact mem_le_foldl_max y ys x h

lemma record_request_ends_request_end_list (c : RequestContext) (ts : List Int) :
    (record_request_ends c ts).request_end_list = c.request_end_list ++ ts := by
  induction ts generalizing c with
  | nil => simp [record_request_ends]
  | cons t ts ih =>
    have h := ih (update_request_end c t)
    simp only [record_request_ends, List.foldl_cons] at h ⊢
    rw [h, update_request_end_request_end_list, List.append_assoc]
    rfl

lemma record_request_ends_client_request_end (c : RequestContext) (ts : List Int) :
    (record_request_ends c ts).client_request_end = c.client_request_end := by
  induction ts generalizing c with
  | nil => simp [record_request_ends]
  | cons t ts ih =>
    have h := ih (update_request_end c t)
    simp only [record_request_ends, List.foldl_cons] at h ⊢
    rw [h, update_request_end_client_request_end]

/-- C1: exiting a nested scope merges the child's derived
client_request_start (first writer wins, hence earliest), its derived
client_request_end (last writer wins), its request_start (written only when
the parent has a client_request_start but no request_start yet) and its
derived request_end (appended to the parent's request_end_list) into the
parent context; in particular a parent that recorded no direct wire calls,
after a child that recorded client_request_start 5 and client_request_end 10
closes, derives client_request_start 5 and client_request_end 10 rather than
the root defaults 0 and the current perf_counter reading. -/
theorem exit_request_context_merges_into_parent
    (parent child : RequestContext) (deeper : List RequestContext) (now : Int) :
    (∃ merged,
      exit_request_context (child :: parent :: deeper) now = merged :: deeper ∧
      merged.client_request_start =
        (if parent.client_request_start.isSome then parent.client_request_start
         else some (client_request_start_of child)) ∧
      merged.client_request_end = some (client_request_end_of child now) ∧
      merged.request_start =
        (if parent.request_start.isNone && parent.client_request_start.isSome then
           some (request_start_of child)
         else parent.request_start) ∧
      merged.request_end_list = parent.request_end_list ++ [request_end_of child now]) ∧
    client_request_start_of
      (List.headD
        (exit_request_context
          [update_client_request_end (update_client_request_start emptyRequestContext 5) 10,
           emptyRequestContext] now)
        emptyRequestContext) = 5 ∧
    client_request_end_of
      (List.headD
        (exit_request_context
          [update_client_request_end (update_client_request_start emptyRequestContext 5) 10,
           emptyRequestContext] now)
        emptyRequestContext) now = 10 := by
  refine ⟨⟨_, rfl, ?_, ?_, ?_, ?_⟩, rfl, rfl⟩
  · rw [update_client_request_end_client_request_start,
      update_client_request_start_client_request_start,
      update_request_end_client_request_start,
      update_request_start_client_request_start]
  · rw [update_client_request_end_client_request_end]
  · rw [update_client_request_end_request_start,
      update_client_request_start_request_start,
      update_request_end_request_start,
      update_request_start_request_start]
  · rw [update_client_request_end_request_end_list,
      update_client_request_start_request_end_list,
      update_request_end_request_end_list,
      update_request_start_request_end_list]

/-- C2: in a scope whose request_end_list was produced by k on_request_end
calls recording ts and whose client_request_end is the single value T, the
derived request_end is the maximum recorded timestamp strictly below T (it
qualifies and dominates every qualifying timestamp), and it is the zero
default when no recorded timestamp is strictly below T. -/
theorem request_end_of_is_max_strictly_below
    (ts : List Int) (T now : Int) :
    (ts.filter (fun t => t < T) = [] →
      request_end_of (record_request_ends (update_client_request_end emptyRequestContext T) ts) now = 0) ∧
    (ts.filter (fun t => t < T) ≠ [] →
      request_end_of (record_request_ends (update_client_request_end emptyRequestContext T) ts) now
          ∈ ts.filter (fun t => t < T) ∧
      ∀ x ∈ ts.filter (fun t => t < T),
        x ≤ request_end_of (record_request_ends (update_client_request_end emptyRequestContext T) ts) now) := by
  have hend :
      client_request_end_of (record_request_ends (update_client_request_end emptyRequestContext T) ts) now = T := by
    rw [client_request_end_of, record_request_ends_client_request_end,
      update_client_request_end_client_request_end, Option.getD_some]
  have hlist :
      (record_request_ends (update_client_request_end emptyRequestContext T) ts).request_end_list = ts := by
    rw [record_request_ends_request_end_list]
    rfl
  have hreq :
      request_end_of (record_request_ends (update_client_request_end emptyRequestContext T) ts) now =
        pymax (ts.filter (fun t => t < T)) 0 := by
    rw [request_end_of, hend, hlist]
  refine ⟨fun h => ?_, fun h => ⟨?_, ?_⟩⟩
  · rw [hreq, h]; rfl
  · rw [hreq]; exact pymax_mem _ 0 h
  · intro x hx; rw [hreq]; exact mem_le_pymax _ 0 x hx

/-- Witness for C2 at a concrete input: timestamps 3, 7 and 12 with
client_request_end 10; the qualifying list is nonempty and the derived
request_end is one of its members. -/
theorem request_end_of_is_max_strictly_below_witness :
    ([3, 7, 12].filter (fun t => (t : Int) < 10) ≠ [] ∧
      request_end_of (record_request_ends (update_client_request_end emptyRequestContext 10) [3, 7, 12]) 99
        ∈ [3, 7, 12].filter (fun t => (t : Int) < 10)) ∧
    request_end_of (record_request_ends (update_client_request_end emptyRequestContext 10) [3, 7, 12]) 99 = 7 := by
  refine ⟨⟨by decide, ?_⟩, by rfl⟩
  exact ((request_end_of_is_max_strictly_below [3, 7, 12] 10 99).2 (by decide)).1

/-- A JSON-like value: the Python dict/list/str/int/bool values exchanged by
the client methods.  Dictionaries are association lists. -/
inductive JsonVal where
  | null : JsonVal
  | boolean (b : Bool) : JsonVal
  | num (n : Int) : JsonVal
  | str (s : String) : JsonVal
  | arr (xs : List JsonVal) : JsonVal
  | obj (fields : List (String × JsonVal)) : JsonVal

/-- Python dict lookup d.get(k) on the association-list model. -/
def dictGet (d : List (String × JsonVal)) (k : String) : Option JsonVal :=
  (d.find? (fun p => p.1 == k)).map (fun p => p.2)

/-- Python membership test k in d. -/
def dictContains (d : List (String × JsonVal)) (k : String) : Bool :=
  d.any (fun p => p.1 == k)

/-- Python assignment d[k] = v: overwrite the existing entry, else append. -/
def dictSet (d : List (String × JsonVal)) (k : String) (v : JsonVal) :
    List (String × JsonVal) :=
  if dictContains d k then d.map (fun p => if p.1 == k then (k, v) else p)
  else d ++ [(k, v)]

/-- One wire request as handed to the transport by a client method. -/
structure WireRequest where
  method : String
  path : String
  params : List (String × JsonVal)
  body : JsonVal

/-- The errors perform_request can raise: a protocol error for a non-2xx
status (requests.HTTPError / aiohttp.ClientResponseError, carrying status
and raw body) and a connection-level transport error. -/
inductive TransportError where
  | protocolError (status : Nat) (body : String)
  | connectionError (msg : String)

/-- A 2xx wire response: declared content type, raw body text, and the value
the body decodes to when it is interpreted as JSON. -/
structure HttpResponse where
  contentType : String
  content : String
  decoded : JsonVal

/-- Outcome of the single wire call inside perform_request: a 2xx response,
a non-2xx status (which raise_for_status turns into a protocol error), or a
connection-level failure. -/
inductive WireOutcome where
  | success (resp : HttpResponse)
  | httpError (status : Nat) (body : String)
  | connectionFailure (msg : String)

/-- Events observable from one perform_request execution, in order. -/
inductive HookEvent where
  | hookClientRequestStart
  | hookRequestStart
  | wireDispatch
  | hookRequestEnd
  | hookClientRequestEnd
deriving DecidableEq

/-- The event order every perform_request execution must produce. -/
def performRequestEvents : List HookEvent :=
  [HookEvent.hookClientRequestStart, HookEvent.hookRequestStart, HookEvent.wireDispatch,
   HookEvent.hookRequestEnd, HookEvent.hookClientRequestEnd]

/-- SyncTransport.perform_request acting on the active request context:
on_client_request_start and on_request_start run before the single wire
call; the try/finally guarantees on_request_end and on_client_request_end on
every exit path, for a decoded response as well as for a raised error.  The
four hook timestamps t1..t4 are explicit perf_counter readings; the returned
trace lists the hook and dispatch events in execution order. -/
def sync_perform_request (c : RequestContext) (t1 t2 t3 t4 : Int) (wire : WireOutcome) :
    Except TransportError JsonVal × RequestContext × List HookEvent :=
  let c1 := update_client_request_start c t1
  let c2 := update_request_start c1 t2
  match wire with
  | WireOutcome.success resp =>
      let result :=
        if resp.content ≠ "" && resp.contentType.startsWith "application/json" then resp.decoded
        else JsonVal.obj []
      (Except.ok result,
       update_client_request_end (update_request_end c2 t3) t4,
       performRequestEvents)
  | WireOutcome.httpError status body =>
      (Except.error (TransportError.protocolError status body),
       update_client_request_end (update_request_end c2 t3) t4,
       performRequestEvents)
  | WireOutcome.connectionFailure msg =>
      (Except.error (TransportError.connectionError msg),
       update_client_request_end (update_request_end c2 t3) t4,
       performRequestEvents)

/-- AsyncTransport.perform_request: identical hook discipline; only the
response decoding is structured differently in the source (content type
checked first, then the empty-body test). -/
def async_perform_request (c : RequestContext) (t1 t2 t3 t4 : Int) (wire : WireOutcome) :
    Except TransportError JsonVal × RequestContext × List HookEvent :=
  let c1 := update_client_request_start c t1
  let c2 := update_request_start c1 t2
  match wire with
  | WireOutcome.success resp =>
      let result :=
        if resp.contentType.startsWith "application/json" then
          (if resp.content ≠ "" then resp.decoded else JsonVal.obj [])
        else JsonVal.obj []
      (Except.ok result,
       update_client_request_end (update_request_end c2 t3) t4,
       performRequestEvents)
  | WireOutcome.httpError status body =>
      (Except.error (TransportError.protocolError status body),
       update_client_request_end (update_request_end c2 t3) t4,
       performRequestEvents)
  | WireOutcome.connectionFailure msg =>
      (Except.error (TransportError.connectionError msg),
       update_client_request_end (update_request_end c2 t3) t4,
       performRequestEvents)

/-- C5: every perform_request execution, blocking or suspending, emits the
hook events in the order client-start, request-start, wire dispatch,
request-end, client-end, and applies all four context updates on every exit
path — the resulting context is the full update chain whether the wire call
succeeded, returned a non-2xx status, or failed at the connection level; the
call returns a value exactly when the wire call succeeded. -/
theorem perform_request_hooks_on_every_path
    (c : RequestContext) (t1 t2 t3 t4 : Int) (wire : WireOutcome) :
    (sync_perform_request c t1 t2 t3 t4 wire).2.2 = performRequestEvents ∧
    (async_perform_request c t1 t2 t3 t4 wire).2.2 = performRequestEvents ∧
    (sync_perform_request c t1 t2 t3 t4 wire).2.1 =
      update_client_request_end
        (update_request_end (update_request_start (update_client_request_start c t1) t2) t3) t4 ∧
    (async_perform_request c t1 t2 t3 t4 wire).2.1 =
      update_client_request_end
        (update_request_end (update_request_start (update_client_request_start c t1) t2) t3) t4 ∧
    ((sync_perform_request c t1 t2 t3 t4 wire).1.isOk ↔
      ∃ resp, wire = WireOutcome.success resp) ∧
    ((async_perform_request c t1 t2 t3 t4 wire).1.isOk ↔
      ∃ resp, wire = WireOutcome.success resp) := by
  cases wire <;>
    simp [sync_perform_request, async_perform_request, Except.isOk, Except.toBool]

/-- The empty-hit result the wildcard fallback returns. -/
def emptyHitsResult : JsonVal :=
  JsonVal.obj [("hits", JsonVal.obj [("hits", JsonVal.arr [])])]

/-- The Python substring test for the wildcard character in the index
argument; for a single-character pattern it is membership of that character
in the string. -/
def containsWildcard (index : String) : Bool :=
  index.data.contains '*'

/-- The params mapping search actually sends: a fresh dict with size 10 when
the caller passed none, the caller's dict with size 10 inserted when it lacks
a size key, and the caller's dict untouched otherwise (search lines 489-492
of both clients). -/
def search_effective_params (params : Option (List (String × JsonVal))) :
    List (String × JsonVal) :=
  match params with
  | none => [("size", JsonVal.num 10)]
  | some p => if dictContains p "size" then p else dictSet p "size" (JsonVal.num 10)

/-- The wire request HyperspaceClient.search hands to
transport.perform_request. -/
def search_request (index : String) (body : JsonVal)
    (params : Option (List (String × JsonVal))) : WireRequest :=
  { method := "POST",
    path := index ++ "/dsl_search",
    params := search_effective_params params,
    body := body }

/-- HyperspaceClient.search.  wire abstracts
self.transport.perform_request; its error outcome models the raised
exception (requests.HTTPError for a non-2xx status, a connection error
otherwise).  The second component is the caller's own params object as the
caller observes it after the call: Python rebinds the local name on the none
branch but mutates the caller's dict in place on the missing-size branch. -/
def sync_search (wire : WireRequest → Except TransportError JsonVal)
    (index : String) (body : JsonVal) (params : Option (List (String × JsonVal))) :
    Except TransportError JsonVal × Option (List (String × JsonVal)) :=
  let callerParams := params.map
    (fun p => if dictContains p "size" then p else dictSet p "size" (JsonVal.num 10))
  match wire (search_request index body params) with
  | Except.ok r => (Except.ok r, callerParams)
  | Except.error (TransportError.protocolError status rawBody) =>
      if containsWildcard index then (Except.ok emptyHitsResult, callerParams)
      else (Except.error (TransportError.protocolError status rawBody), callerParams)
  | Except.error (TransportError.connectionError msg) =>
      (Except.error (TransportError.connectionError msg), callerParams)

/-- AsyncHyperspaceClient.search: the same logic, catching
aiohttp.ClientResponseError (again the non-2xx protocol error) instead. -/
def async_search (wire : WireRequest → Except TransportError JsonVal)
    (index : String) (body : JsonVal) (params : Option (List (String × JsonVal))) :
    Except TransportError JsonVal × Option (List (String × JsonVal)) :=
  let callerParams := params.map
    (fun p => if dictContains p "size" then p else dictSet p "size" (JsonVal.num 10))
  match wire (search_request index body params) with
  | Except.ok r => (Except.ok r, callerParams)
  | Except.error (TransportError.protocolError status rawBody) =>
      if containsWildcard index then (Except.ok emptyHitsResult, callerParams)
      else (Except.error (TransportError.protocolError status rawBody), callerParams)
  | Except.error (TransportError.connectionError msg) =>
      (Except.error (TransportError.connectionError msg), callerParams)

lemma dictGet_append_single_of_not_contains
    (d : List (String × JsonVal)) (k : String) (v : JsonVal)
    (h : dictContains d k = false) :
    dictGet (d ++ [(k, v)]) k = some v := by
  induction d with
  | nil => simp [dictGet, List.find?]
  | cons a d ih =>
    simp only [dictContains, List.any_cons, Bool.or_eq_false_iff] at h
    have hd := ih h.2
    simp only [dictGet, List.cons_append, List.find?] at hd ⊢
    rw [h.1]
    exact hd

lemma dictGet_dictSet_of_not_contains
    (d : List (String × JsonVal)) (k : String) (v : JsonVal)
    (h : dictContains d k = false) :
    dictGet (dictSet d k v) k = some v := by
  rw [dictSet, h]
  simp only [Bool.false_eq_true, if_false]
  exact dictGet_append_single_of_not_contains d k v h

/-- C6: the outgoing search request carries size 10 when the caller passed
no params mapping or a mapping without a size key, and carries the caller's
entire params mapping unchanged (hence the caller's size value) when a size
key is present; both clients dispatch exactly this request. -/
theorem search_request_size_default
    (index : String) (body : JsonVal) (p : List (String × JsonVal)) :
    (search_request index body none).params = [("size", JsonVal.num 10)] ∧
    (dictContains p "size" = false →
      dictGet (search_request index body (some p)).params "size" = some (JsonVal.num 10)) ∧
    (dictContains p "size" = true →
      (search_request index body (some p)).params = p) := by
  refine ⟨rfl, fun h => ?_, fun h => ?_⟩
  · simp only [search_request, search_effective_params, h, Bool.false_eq_true, if_false]
    exact dictGet_dictSet_of_not_contains p "size" (JsonVal.num 10) h
  · simp [search_request, search_effective_params, h]

/-- Witness for C6: an explicit params mapping with size 5 is preserved, and
a mapping without a size key gets size 10 injected. -/
theorem search_request_size_default_witness :
    (search_request "my-index" (JsonVal.obj []) none).params = [("size", JsonVal.num 10)] ∧
    dictGet (search_request "my-index" (JsonVal.obj [])
        (some [("from", JsonVal.num 0)])).params "size" = some (JsonVal.num 10) ∧
    (search_request "my-index" (JsonVal.obj [])
        (some [("size", JsonVal.num 5)])).params = [("size", JsonVal.num 5)] := by
  refine ⟨(search_request_size_default "my-index" (JsonVal.obj []) [("from", JsonVal.num 0)]).1,
    (search_request_size_default "my-index" (JsonVal.obj []) [("from", JsonVal.num 0)]).2.1 (by rfl),
    (search_request_size_default "my-index" (JsonVal.obj []) [("size", JsonVal.num 5)]).2.2 (by rfl)⟩

/-- C3: when the wire exchange for a search raises a non-2xx protocol error,
an index containing a wildcard character yields the empty-hit result
instead of an error, and an index without a wildcard propagates exactly the
protocol error, in the blocking and in the suspending client alike. -/
theorem search_wildcard_fallback
    (wire : WireRequest → Except TransportError JsonVal)
    (index : String) (body : JsonVal) (params : Option (List (String × JsonVal)))
    (status : Nat) (rawBody : String)
    (hwire : wire (search_request index body params) =
      Except.error (TransportError.protocolError status rawBody)) :
    (containsWildcard index = true →
      (sync_search wire index body params).1 = Except.ok emptyHitsResult ∧
      (async_search wire index body params).1 = Except.ok emptyHitsResult) ∧
    (containsWildcard index = false →
      (sync_search wire index body params).1 =
        Except.error (TransportError.protocolError status rawBody) ∧
      (async_search wire index body params).1 =
        Except.error (TransportError.protocolError status rawBody)) := by
  refine ⟨fun h => ?_, fun h => ?_⟩ <;>
    simp [sync_search, async_search, hwire, h]

/-- Witness for C3: a wire call that always fails with status 500 makes a
search against logs-asterisk return the empty-hit result while the same
failure against logs-1 surfaces as the protocol error. -/
theorem search_wildcard_fallback_witness :
    (sync_search (fun _ => Except.error (TransportError.protocolError 500 "boom"))
        "logs-*" (JsonVal.obj []) none).1 = Except.ok emptyHitsResult ∧
    (async_search (fun _ => Except.error (TransportError.protocolError 500 "boom"))
        "logs-*" (JsonVal.obj []) none).1 = Except.ok emptyHitsResult ∧
    (sync_search (fun _ => Except.error (TransportError.protocolError 500 "boom"))
        "logs-1" (JsonVal.obj []) none).1 =
      Except.error (TransportError.protocolError 500 "boom") ∧
    (async_search (fun _ => Except.error (TransportError.protocolError 500 "boom"))
        "logs-1" (JsonVal.obj []) none).1 =
      Except.error (TransportError.protocolError 500 "boom") := by
  have hstar := (search_wildcard_fallback
    (fun _ => Except.error (TransportError.protocolError 500 "boom"))
    "logs-*" (JsonVal.obj []) none 500 "boom" rfl).1 (by decide)
  have hplain := (search_wildcard_fallback
    (fun _ => Except.error (TransportError.protocolError 500 "boom"))
    "logs-1" (JsonVal.obj []) none 500 "boom" rfl).2 (by decide)
  exact ⟨hstar.1, hstar.2, hplain.1, hplain.2⟩

/-- C10: a search given a non-null params mapping lacking a size key mutates
the caller's own mapping: after the call (in either client) the caller's
object is its old mapping with size 10 appended, and looking up size in it
now yields 10. -/
theorem search_mutates_caller_params
    (wire : WireRequest → Except TransportError JsonVal)
    (index : String) (body : JsonVal) (p : List (String × JsonVal))
    (h : dictContains p "size" = false) :
    (sync_search wire index body (some p)).2 =
      some (dictSet p "size" (JsonVal.num 10)) ∧
    (async_search wire index body (some p)).2 =
      some (dictSet p "size" (JsonVal.num 10)) ∧
    dictGet (dictSet p "size" (JsonVal.num 10)) "size" = some (JsonVal.num 10) := by
  refine ⟨?_, ?_, dictGet_dictSet_of_not_contains p "size" (JsonVal.num 10) h⟩
  · cases hw : wire (search_request index body (some p)) with
    | ok r => simp [sync_search, hw, h]
    | error e =>
      cases e with
      | protocolError s b =>
        by_cases hwild : containsWildcard index <;> simp [sync_search, hw, h, hwild]
      | connectionError m => simp [sync_search, hw, h]
  · cases hw : wire (search_request index body (some p)) with
    | ok r => simp [async_search, hw, h]
    | error e =>
      cases e with
      | protocolError s b =>
        by_cases hwild : containsWildcard index <;> simp [async_search, hw, h, hwild]
      | connectionError m => simp [async_search, hw, h]

/-- Python substring membership (pat in l) on character lists. -/
def listHasInfix (pat l : List Char) : Bool :=
  match l with
  | [] => List.isPrefixOf pat []
  | _ :: rest => List.isPrefixOf pat l || listHasInfix pat rest

/-- Python str.strip: drop whitespace at both ends. -/
def stripChars (l : List Char) : List Char :=
  ((l.dropWhile Char.isWhitespace).reverse.dropWhile Char.isWhitespace).reverse

/-- Split a character list at newline characters.  Python str.splitlines
additionally drops a trailing empty piece and also splits at carriage
returns; both differences are erased by the strip-and-drop-blank step that
always follows this call. -/
def splitLinesAux (l : List Char) (acc : List Char) : List (List Char) :=
  match l with
  | [] => [acc.reverse]
  | c :: rest =>
    if c == '\n' then acc.reverse :: splitLinesAux rest []
    else splitLinesAux rest (c :: acc)

/-- text.splitlines() on the string model. -/
def splitlines (s : String) : List (List Char) :=
  splitLinesAux s.data []

/-- The normalization in _parse_bulk_body:
lines = [l.strip() for l in text.splitlines() if l.strip()]. -/
def strip_lines (s : String) : List (List Char) :=
  ((splitlines s).map stripChars).filter (fun l => !l.isEmpty)

/-- The action-metadata test of _parse_bulk_body:
line.startswith(the object-open character) and the line contains the quoted
key index or the quoted key create. -/
def isActionMetaLine (line : List Char) : Bool :=
  List.isPrefixOf "\x7b".data line &&
    (listHasInfix "\"index\"".data line || listHasInfix "\"create\"".data line)

/-- The scanning loop of _parse_bulk_body with its single skip_next flag;
loads models json.loads applied to one line. -/
def scan_bulk_lines (loads : List Char → JsonVal) :
    List (List Char) → Bool → List JsonVal
  | [], _ => []
  | line :: rest, skipNext =>
    if skipNext then loads line :: scan_bulk_lines loads rest false
    else if isActionMetaLine line then scan_bulk_lines loads rest true
    else loads line :: scan_bulk_lines loads rest false

/-- The accepted bulk body representations.  Each non-list form carries the
text it normalizes to: raw bytes after utf-8 decoding, a file path by the
named file's contents, an open handle by what read() returns. -/
inductive BulkBody where
  | docs (ds : List JsonVal)
  | text (s : String)
  | rawBytes (s : String)
  | filePath (contents : String)
  | readHandle (contents : String)

/-- HyperspaceClient._parse_bulk_body (the async client calls the very same
static method): an in-memory list is returned unchanged; every other form is
normalized to text and scanned. -/
def parse_bulk_body (loads : List Char → JsonVal) : BulkBody → List JsonVal
  | BulkBody.docs ds => ds
  | BulkBody.text s => scan_bulk_lines loads (strip_lines s) false
  | BulkBody.rawBytes s => scan_bulk_lines loads (strip_lines s) false
  | BulkBody.filePath s => scan_bulk_lines loads (strip_lines s) false
  | BulkBody.readHandle s => scan_bulk_lines loads (strip_lines s) false

/-- The line sequence encoding a list of action/document line pairs. -/
def pairLines (pairs : List (List Char × List Char)) : List (List Char) :=
  match pairs with
  | [] => []
  | p :: rest => p.1 :: p.2 :: pairLines rest

lemma scan_bulk_lines_pairs_append
    (loads : List Char → JsonVal) (pairs : List (List Char × List Char))
    (suffix : List (List Char))
    (h : ∀ p ∈ pairs, isActionMetaLine p.1 = true) :
    scan_bulk_lines loads (pairLines pairs ++ suffix) false =
      pairs.map (fun p => loads p.2) ++ scan_bulk_lines loads suffix false := by
  induction pairs with
  | nil => simp [pairLines]
  | cons p rest ih =>
    have hp := h p (List.mem_cons_self p rest)
    have hrest := ih (fun q hq => h q (List.mem_cons_of_mem p hq))
    simp [pairLines, scan_bulk_lines, hp, hrest]

/-- C4: an in-memory document list is returned unchanged by
_parse_bulk_body; every textual representation (string, raw bytes, file
path, open handle) is normalized to text, split into non-empty trimmed
lines, and when those lines encode N action/document pairs (each action line
starting with the object-open character and containing the key index or
create) the parse yields exactly the N documents, decoded in original order,
with every action-metadata line discarded. -/
theorem parse_bulk_body_pairs
    (loads : List Char → JsonVal) (pairs : List (List Char × List Char)) (s : String)
    (haction : ∀ p ∈ pairs, isActionMetaLine p.1 = true)
    (hsplit : strip_lines s = pairLines pairs) :
    parse_bulk_body loads (BulkBody.text s) = pairs.map (fun p => loads p.2) ∧
    parse_bulk_body loads (BulkBody.rawBytes s) = pairs.map (fun p => loads p.2) ∧
    parse_bulk_body loads (BulkBody.filePath s) = pairs.map (fun p => loads p.2) ∧
    parse_bulk_body loads (BulkBody.readHandle s) = pairs.map (fun p => loads p.2) ∧
    (parse_bulk_body loads (BulkBody.text s)).length = pairs.length ∧
    (∀ ds, parse_bulk_body loads (BulkBody.docs ds) = ds) := by
  have key : scan_bulk_lines loads (strip_lines s) false = pairs.map (fun p => loads p.2) := by
    rw [hsplit]
    simpa [scan_bulk_lines] using scan_bulk_lines_pairs_append loads pairs [] haction
  exact ⟨key, key, key, key, by rw [show parse_bulk_body loads (BulkBody.text s) =
    pairs.map (fun p => loads p.2) from key, List.length_map], fun ds => rfl⟩

/-- Witness for C4: a four-line body with two index/create action lines
parses to the two documents, in order. -/
theorem parse_bulk_body_pairs_witness :
    parse_bulk_body (fun l => JsonVal.str (String.mk l))
        (BulkBody.text "\x7b\"index\"\x7d\n\x7b\"a\":1\x7d\n\x7b\"create\"\x7d\n\x7b\"b\":2\x7d") =
      [JsonVal.str "\x7b\"a\":1\x7d", JsonVal.str "\x7b\"b\":2\x7d"] := by
  have h := (parse_bulk_body_pairs (fun l => JsonVal.str (String.mk l))
    [("\x7b\"index\"\x7d".data, "\x7b\"a\":1\x7d".data),
     ("\x7b\"create\"\x7d".data, "\x7b\"b\":2\x7d".data)]
    "\x7b\"index\"\x7d\n\x7b\"a\":1\x7d\n\x7b\"create\"\x7d\n\x7b\"b\":2\x7d"
    (by decide) (by decide)).1
  rw [h]
  rfl

/-- C9: a bulk body whose final non-empty line is an action-metadata line
with no document line after it parses to the documents of all preceding
action/document pairs; the trailing action line is silently discarded, never
handed to the document decoder (the equality holds for every decoder), and
no error is raised. -/
theorem parse_bulk_body_trailing_action_discarded
    (loads : List Char → JsonVal) (pairs : List (List Char × List Char))
    (a : List Char) (s : String)
    (haction : ∀ p ∈ pairs, isActionMetaLine p.1 = true)
    (ha : isActionMetaLine a = true)
    (hsplit : strip_lines s = pairLines pairs ++ [a]) :
    parse_bulk_body loads (BulkBody.text s) = pairs.map (fun p => loads p.2) ∧
    parse_bulk_body loads (BulkBody.rawBytes s) = pairs.map (fun p => loads p.2) ∧
    parse_bulk_body loads (BulkBody.filePath s) = pairs.map (fun p => loads p.2) ∧
    parse_bulk_body loads (BulkBody.readHandle s) = pairs.map (fun p => loads p.2) := by
  have key : scan_bulk_lines loads (strip_lines s) false = pairs.map (fun p => loads p.2) := by
    rw [hsplit, scan_bulk_lines_pairs_append loads pairs [a] haction]
    simp [scan_bulk_lines, ha]
  exact ⟨key, key, key, key⟩

/-- Witness for C9: one complete pair followed by a trailing create action
line parses to exactly the one document. -/
theorem parse_bulk_body_trailing_action_discarded_witness :
    parse_bulk_body (fun l => JsonVal.str (String.mk l))
        (BulkBody.text "\x7b\"index\"\x7d\n\x7b\"a\":1\x7d\n\x7b\"create\"\x7d") =
      [JsonVal.str "\x7b\"a\":1\x7d"] := by
  have h := (parse_bulk_body_trailing_action_discarded (fun l => JsonVal.str (String.mk l))
    [("\x7b\"index\"\x7d".data, "\x7b\"a\":1\x7d".data)]
    "\x7b\"create\"\x7d".data
    "\x7b\"index\"\x7d\n\x7b\"a\":1\x7d\n\x7b\"create\"\x7d"
    (by decide) (by decide) (by decide)).1
  rw [h]
  rfl

/-- Python truthiness of the token constructor argument: an Optional[str]
is truthy exactly when it is present and non-empty. -/
def tokenTruthy : Option String → Bool
  | none => false
  | some s => !(s == "")

/-- Outcome of _BaseClient.__init__'s credential handling. -/
inductive InitOutcome where
  | initialized (headers : List (String × String))
  | valueErrorRaised (msg : String)
  | loginError

/-- _BaseClient.__init__ (credential handling, lines 31-36) composed with
_login.  loginExchange yields the token field of a successful login response
(data.get("token") or data.get("access_token")); none covers both an HTTP
failure of the login call and a token-less response, each of which raises. -/
def base_client_init (loginExchange : String → String → Option String)
    (token login_user login_password : Option String) : InitOutcome :=
  if tokenTruthy token then
    InitOutcome.initialized [("Authorization", "Bearer " ++ token.getD "")]
  else if login_user.isSome || login_password.isSome then
    if login_user.isNone || login_password.isNone then
      InitOutcome.valueErrorRaised "login_user and login_password must both be provided"
    else
      match loginExchange (login_user.getD "") (login_password.getD "") with
      | some tk => InitOutcome.initialized [("Authorization", "Bearer " ++ tk)]
      | none => InitOutcome.loginError
  else
    InitOutcome.initialized []

/-- Counterexample to C7 as stated: a construction that supplies a bearer
token together with a login username and no password raises nothing - the
token branch wins before the credential check runs, so not every
construction with exactly one of username/password raises. -/
theorem base_client_init_token_overrides_single_credential :
    base_client_init (fun _ _ => none) (some "tok") (some "user") none =
      InitOutcome.initialized [("Authorization", "Bearer tok")] ∧
    base_client_init (fun _ _ => none) (some "tok") (some "user") none ≠
      InitOutcome.valueErrorRaised "login_user and login_password must both be provided" := by
  refine ⟨rfl, fun h => ?_⟩
  exact InitOutcome.noConfusion h

/-- C7 as amended: when no truthy bearer token is supplied, a construction
with exactly one of login username and login password raises the
configuration ValueError; a construction with a truthy bearer token uses the
token directly (for every login exchange, which is never consulted),
whatever the credential fields hold. -/
theorem base_client_init_single_credential_rejected
    (loginExchange : String → String → Option String)
    (token login_user login_password : Option String) (s : String)
    (hnotok : tokenTruthy token = false)
    (hone : login_user.isSome ≠ login_password.isSome)
    (hs : s ≠ "") :
    base_client_init loginExchange token login_user login_password =
      InitOutcome.valueErrorRaised "login_user and login_password must both be provided" ∧
    base_client_init loginExchange (some s) login_user login_password =
      InitOutcome.initialized [("Authorization", "Bearer " ++ s)] := by
  constructor
  · cases login_user <;> cases login_password <;>
      simp_all [base_client_init, hnotok]
  · simp [base_client_init, tokenTruthy, hs]

/-- Witness for the amended C7: with no token, username alone raises the
ValueError; with token tok the client is initialized with that bearer
token. -/
theorem base_client_init_single_credential_rejected_witness :
    base_client_init (fun _ _ => none) none (some "user") none =
      InitOutcome.valueErrorRaised "login_user and login_password must both be provided" ∧
    base_client_init (fun _ _ => none) (some "tok") (some "user") none =
      InitOutcome.initialized [("Authorization", "Bearer tok")] := by
  have h := base_client_init_single_credential_rejected (fun _ _ => none)
    none (some "user") none "tok" (by rfl) (by decide) (by decide)
  exact ⟨h.1, h.2⟩

/-- _Indices.refresh: Hyperspace exposes no refresh; the body only logs and
returns the empty dict.  The wire argument is the transport reachable from
the method (self._client.transport); no branch invokes it, and the same
holds for every stub below. -/
def indices_refresh (_wire : WireRequest → Except TransportError JsonVal)
    (_index : String) : JsonVal :=
  JsonVal.obj []

/-- _Indices.put_settings stub. -/
def indices_put_settings (_wire : WireRequest → Except TransportError JsonVal)
    (_args : List JsonVal) : JsonVal :=
  JsonVal.obj []

/-- _Indices.shrink stub. -/
def indices_shrink (_wire : WireRequest → Except TransportError JsonVal)
    (_args : List JsonVal) : JsonVal :=
  JsonVal.obj []

/-- _Indices.forcemerge stub. -/
def indices_forcemerge (_wire : WireRequest → Except TransportError JsonVal)
    (_args : List JsonVal) : JsonVal :=
  JsonVal.obj []

/-- _Indices.delete_index_template stub. -/
def indices_delete_index_template (_wire : WireRequest → Except TransportError JsonVal)
    (_args : List JsonVal) : JsonVal :=
  JsonVal.obj []

/-- _Cluster.put_settings stub. -/
def cluster_put_settings (_wire : WireRequest → Except TransportError JsonVal)
    (_args : List JsonVal) : JsonVal :=
  JsonVal.obj []

/-- _Cluster.put_component_template stub. -/
def cluster_put_component_template (_wire : WireRequest → Except TransportError JsonVal)
    (_args : List JsonVal) : JsonVal :=
  JsonVal.obj []

/-- _Cluster.delete_component_template stub. -/
def cluster_delete_component_template (_wire : WireRequest → Except TransportError JsonVal)
    (_args : List JsonVal) : JsonVal :=
  JsonVal.obj []

/-- _Cluster.put_index_template stub. -/
def cluster_put_index_template (_wire : WireRequest → Except TransportError JsonVal)
    (_args : List JsonVal) : JsonVal :=
  JsonVal.obj []

/-- _AsyncIndices.refresh stub (the suspending twin). -/
def async_indices_refresh (_wire : WireRequest → Except TransportError JsonVal)
    (_index : String) : JsonVal :=
  JsonVal.obj []

/-- _AsyncIndices.put_settings stub. -/
def async_indices_put_settings (_wire : WireRequest → Except TransportError JsonVal)
    (_args : List JsonVal) : JsonVal :=
  JsonVal.obj []

/-- _AsyncIndices.shrink stub. -/
def async_indices_shrink (_wire : WireRequest → Except TransportError JsonVal)
    (_args : List JsonVal) : JsonVal :=
  JsonVal.obj []

/-- _AsyncIndices.forcemerge stub. -/
def async_indices_forcemerge (_wire : WireRequest → Except TransportError JsonVal)
    (_args : List JsonVal) : JsonVal :=
  JsonVal.obj []

/-- _AsyncIndices.delete_index_template stub. -/
def async_indices_delete_index_template (_wire : WireRequest → Except TransportError JsonVal)
    (_args : List JsonVal) : JsonVal :=
  JsonVal.obj []

/-- _AsyncCluster.put_settings stub. -/
def async_cluster_put_settings (_wire : WireRequest → Except TransportError JsonVal)
    (_args : List JsonVal) : JsonVal :=
  JsonVal.obj []

/-- _AsyncCluster.put_component_template stub. -/
def async_cluster_put_component_template (_wire : WireRequest → Except TransportError JsonVal)
    (_args : List JsonVal) : JsonVal :=
  JsonVal.obj []

/-- _AsyncCluster.delete_component_template stub. -/
def async_cluster_delete_component_template (_wire : WireRequest → Except TransportError JsonVal)
    (_args : List JsonVal) : JsonVal :=
  JsonVal.obj []

/-- _AsyncCluster.put_index_template stub. -/
def async_cluster_put_index_template (_wire : WireRequest → Except TransportError JsonVal)
    (_args : List JsonVal) : JsonVal :=
  JsonVal.obj []

/-- C8: every unsupported-capability operation returns the empty dict for
every transport (so no wire call can influence it and no error can be
raised; the plain JsonVal return type excludes an error outcome), in the
blocking and in the suspending variant alike. -/
theorem unsupported_capability_stubs_return_empty
    (wire : WireRequest → Except TransportError JsonVal)
    (index : String) (args : List JsonVal) :
    indices_refresh wire index = JsonVal.obj [] ∧
    indices_put_settings wire args = JsonVal.obj [] ∧
    indices_shrink wire args = JsonVal.obj [] ∧
    indices_forcemerge wire args = JsonVal.obj [] ∧
    indices_delete_index_template wire args = JsonVal.obj [] ∧
    cluster_put_settings wire args = JsonVal.obj [] ∧
    cluster_put_component_template wire args = JsonVal.obj [] ∧
    cluster_delete_component_template wire args = JsonVal.obj [] ∧
    cluster_put_index_template wire args = JsonVal.obj [] ∧
    async_indices_refresh wire index = JsonVal.obj [] ∧
    async_indices_put_settings wire args = JsonVal.obj [] ∧
    async_indices_shrink wire args = JsonVal.obj [] ∧
    async_indices_forcemerge wire args = JsonVal.obj [] ∧
    async_indices_delete_index_template wire args = JsonVal.obj [] ∧
    async_cluster_put_settings wire args = JsonVal.obj [] ∧
    async_cluster_put_component_template wire args = JsonVal.obj [] ∧
    async_cluster_delete_component_template wire args = JsonVal.obj [] ∧
    async_cluster_put_index_template wire args = JsonVal.obj [] := by
  exact ⟨rfl, rfl, rfl, rfl, rfl, rfl, rfl, rfl, rfl, rfl, rfl, rfl, rfl, rfl,
    rfl, rfl, rfl, rfl⟩

/-- Witness for C10: a caller mapping holding only a from key comes back
from the blocking search with size 10 appended, and looking size up in the
mutated mapping yields 10. -/
theorem search_mutates_caller_params_witness :
    (sync_search (fun _ => Except.ok (JsonVal.obj [])) "idx" (JsonVal.obj [])
        (some [("from", JsonVal.num 0)])).2 =
      some [("from", JsonVal.num 0), ("size", JsonVal.num 10)] ∧
    dictGet (dictSet [("from", JsonVal.num 0)] "size" (JsonVal.num 10)) "size" =
      some (JsonVal.num 10) := by
  have h := search_mutates_caller_params (fun _ => Except.ok (JsonVal.obj []))
    "idx" (JsonVal.obj []) [("from", JsonVal.num 0)] (by rfl)
  refine ⟨?_, h.2.2⟩
  rw [h.1]
  rfl
